import Mathlib

/-!
# Verification of the `check-rss` edge function (joy-feed-fetcher)

Shallow embedding of `src/supabase/functions/check-rss/index.ts`.

Modelling conventions:
- JavaScript strings are Lean `String`s; where character-level scanning is
  needed (regex emulation) we work on `List Char`.
- Machine-external effects (HTTP calls, `JSON.parse`, `atob`, `Date` parsing,
  HMAC verification, the current time) are oracles packaged in an `Env`
  structure; each oracle is a total function whose result encodes the
  JavaScript outcome, including the throwing case as `none` / an `exn`
  constructor.
- The database is modelled by its observable content: the `news_items` table
  is a list of rows, and an insert fails exactly on a violation of the
  `link TEXT NOT NULL UNIQUE` constraint from the migration (the database is
  assumed reachable; transport-level errors of individual writes are not
  modelled).  The `rss_runs` ledger writes are best-effort side logging and
  are not part of any claim, so they are not modelled.
- JavaScript truthiness, `||` chains, `String.prototype.trim`, the `\s`
  character class, and the relevant regex semantics are embedded explicitly.
-/

set_option autoImplicit false

namespace CheckRss

/-- JSON values as produced by a successful `JSON.parse`.  Numbers are
modelled as integers; none of the verified code paths inspects a numeric
value other than for truthiness (`0` falsy). -/
inductive Json where
  | null
  | bool (b : Bool)
  | num (n : Int)
  | str (s : String)
  | arr (xs : List Json)
  | obj (fields : List (String × Json))
  deriving Repr

/-- Equality test on `Json`, needed because the nested occurrence of
`List Json` defeats automatic `DecidableEq` derivation on this Lean. -/
def Json.beq : Json → Json → Bool
  | .null, .null => true
  | .bool a, .bool b => a == b
  | .num a, .num b => a == b
  | .str a, .str b => a == b
  | .arr xs, .arr ys =>
      (match xs, ys with
        | [], [] => true
        | x :: xs, y :: ys => Json.beq x y && Json.beq (.arr xs) (.arr ys)
        | _, _ => false)
  | .obj xs, .obj ys =>
      (match xs, ys with
        | [], [] => true
        | (k, x) :: xs, (l, y) :: ys =>
            k == l && Json.beq x y && Json.beq (.obj xs) (.obj ys)
        | _, _ => false)
  | _, _ => false

/-- JavaScript truthiness of a JSON value (`undefined` is represented by
`Option.none` at use sites). -/
def jsTruthy : Json → Bool
  | .null => false
  | .bool b => b
  | .num n => n != 0
  | .str s => s != ""
  | .arr _ => true
  | .obj _ => true

/-- Property access `v.k` on a parsed JSON value: a field lookup on objects,
`undefined` (`none`) on anything else.  (`null.k` throws in JavaScript, but
every use site catches that throw and produces the same result the `none`
branch produces, so `none` is an extensionally faithful model there; see the
comments at the use sites.) -/
def getField : Json → String → Option Json
  | .obj fields, k => (fields.find? (fun p => p.1 == k)).map Prod.snd
  | _, _ => none

/-- The JavaScript `\s` class and the characters removed by
`String.prototype.trim` (WhiteSpace ∪ LineTerminator). -/
def isJsWhitespace (c : Char) : Bool :=
  c == ' ' || c == '\t' || c == '\n' || c == '\r' ||
  c == '\x0b' || c == '\x0c' ||
  c == '\u00A0' || c == '\u1680' ||
  ('\u2000' ≤ c && c ≤ '\u200A') ||
  c == '\u2028' || c == '\u2029' || c == '\u202F' ||
  c == '\u205F' || c == '\u3000' || c == '\uFEFF'

/-- Embeds `String.prototype.trim` on a character list. -/
def trimJs (s : List Char) : List Char :=
  ((s.dropWhile isJsWhitespace).reverse.dropWhile isJsWhitespace).reverse

/-- Embeds `trim` on strings. -/
def strTrimJs (s : String) : String :=
  String.mk (trimJs s.toList)

/-- Split a character list at the first occurrence of the pattern `pat`:
`breakOn pat s = some (pre, post)` with `s = pre ++ pat ++ post` and no
occurrence of `pat` starting inside `pre`.  This is the "leftmost match,
continue after the match" primitive underlying the regex emulation. -/
def breakOn (pat : List Char) : List Char → Option (List Char × List Char)
  | [] => if pat.isEmpty then some ([], []) else none
  | c :: rest =>
      if pat.isPrefixOf (c :: rest) then
        some ([], (c :: rest).drop pat.length)
      else
        match breakOn pat rest with
        | some (pre, post) => some (c :: pre, post)
        | none => none

/-- One parsed feed item (`interface RSSItem`). -/
structure RSSItem where
  title : String
  link : String
  pubDate : Option String
  deriving DecidableEq, Repr

/-- The repeated, global match of `/<item>([\s\S]*?)<\/item>/g`: each
iteration finds the next `<item>`, then the nearest following `</item>`
(lazy group), yields the text between, and resumes after the close tag.
The fuel argument bounds the number of iterations; `s.length` always
suffices because each iteration consumes at least one character. -/
def extractItemsAux (openTag closeTag : List Char) : Nat → List Char → List (List Char)
  | 0, _ => []
  | fuel + 1, s =>
      match breakOn openTag s with
      | none => []
      | some (_, afterOpen) =>
          match breakOn closeTag afterOpen with
          | none => []
          | some (content, rest) => content :: extractItemsAux openTag closeTag fuel rest

/-- All `<item>…</item>` blocks of the document, in order. -/
def extractItemBlocks (s : List Char) : List (List Char) :=
  extractItemsAux "<item>".toList "</item>".toList s.length s

/-- Embeds `exec` of the non-global regex
`/<tag><!\[CDATA\[([\s\S]*?)\]\]><\/tag>|<tag>([\s\S]*?)<\/tag>/`
against `content`: `none` when there is no match, otherwise the pair of the
two capture groups (exactly one of which is defined, as in the regex).

Both alternatives begin with the literal `<tag>`, so the leftmost match must
start at the first occurrence of `<tag>`; and whenever neither alternative
matches there, neither can match at a later occurrence (both alternatives
require a later `</tag>`, which would already have let the second
alternative match at the first occurrence).  At that position the CDATA
alternative is tried first; its lazy group captures up to the first
`]]></tag>`, and the plain alternative's lazy group captures up to the first
`</tag>`. -/
def execTagField (tag : String) (content : List Char) : Option (Option (List Char) × Option (List Char)) :=
  let openT := ("<" ++ tag ++ ">").toList
  let closeT := ("</" ++ tag ++ ">").toList
  let cdOpen := "<![CDATA[".toList
  let cdClose := ("]]></" ++ tag ++ ">").toList
  match breakOn openT content with
  | none => none
  | some (_, rest) =>
      let plainAlt : Option (Option (List Char) × Option (List Char)) :=
        match breakOn closeT rest with
        | some (g2, _) => some (none, some g2)
        | none => none
      if cdOpen.isPrefixOf rest then
        match breakOn cdClose (rest.drop cdOpen.length) with
        | some (g1, _) => some (some g1, none)
        | none => plainAlt
      else plainAlt

/-- The JavaScript expression `a || b || ''` over the two capture groups
(`undefined` = `none`, and the empty string is falsy). -/
def jsOrElse (a b : Option (List Char)) : List Char :=
  match a with
  | some s => if s = [] then (match b with | some t => t | none => []) else s
  | none => match b with | some t => t | none => []

/-- The body of the per-item-block loop of `parseRSS` (lines 110–124): run
the three field regexes; an item is emitted only when the link regex matched
and the trimmed link text is non-empty; a missing title yields `''` and a
missing publish date yields `null`. -/
def mkRSSItem (content : List Char) : Option RSSItem :=
  let titleMatch := execTagField "title" content
  let linkMatch := execTagField "link" content
  let pubDateMatch := execTagField "pubDate" content
  match linkMatch with
  | none => none
  | some lm =>
      let title : List Char :=
        match titleMatch with
        | some tm => trimJs (jsOrElse tm.1 tm.2)
        | none => []
      let link : List Char := trimJs (jsOrElse lm.1 lm.2)
      let pubDate : Option String :=
        match pubDateMatch with
        | some pm => some (String.mk (trimJs (jsOrElse pm.1 pm.2)))
        | none => none
      if link = [] then none
      else some { title := String.mk title, link := String.mk link, pubDate := pubDate }

/-- Embeds `parseRSS` (lines 99–128): regex-based extraction of the feed items. -/
def parseRSS (xmlText : String) : List RSSItem :=
  (extractItemBlocks xmlText.toList).filterMap mkRSSItem

/-- Webhook and production/test mode selector. -/
inductive Mode where
  | production
  | test
  deriving DecidableEq, Repr

/-- The four configured feed sources (`RSS_SOURCES`). -/
inductive SourceKey where
  | nius
  | jungefreiheit
  | apollonews
  | freilichmagazin
  deriving DecidableEq, Repr

/-- Display name of a source (`RSS_SOURCES[k].name`). -/
def sourceName : SourceKey → String
  | .nius => "NIUS"
  | .jungefreiheit => "Junge Freiheit"
  | .apollonews => "Apollo News"
  | .freilichmagazin => "Freilich Magazin"

/-- Feed URL of a source (`RSS_SOURCES[k].url`). -/
def sourceUrl : SourceKey → String
  | .nius => "https://nius.de/rss"
  | .jungefreiheit => "https://jungefreiheit.de/feed/"
  | .apollonews => "https://apollo-news.net/feed/"
  | .freilichmagazin => "https://freilich-magazin.com/rss.xml"

/-- The body key naming a source (`keyof typeof RSS_SOURCES`). -/
def sourceKeyStr : SourceKey → String
  | .nius => "nius"
  | .jungefreiheit => "jungefreiheit"
  | .apollonews => "apollonews"
  | .freilichmagazin => "freilichmagazin"

/-- Embeds the `{ id, link, title }` payload of an explicit retry request (`type RetryItem`). -/
structure RetryItem where
  id : String
  link : String
  title : Option String
  deriving DecidableEq, Repr

/-- Embeds `type CheckRssOptions`. -/
structure CheckRssOptions where
  webhookMode : Mode
  enabledSources : List SourceKey
  retryItem : Option RetryItem
  teamsEnabled : Bool
  teamsMode : Mode
  deriving DecidableEq, Repr

/-- Outcome of one outbound HTTP call: a 2xx response with a body, a
non-2xx response, or a thrown network/timeout error. -/
inductive HttpOutcome where
  | ok (body : String)
  | httpError (status : Nat) (body : String)
  | exn (msg : String)
  deriving DecidableEq, Repr

/-- One `news_items` row, as observable through the verified code. The `id`
of rows inserted during a run is database-generated and never read back by
the function, so it is modelled as `""` for fresh inserts. -/
structure Row where
  id : String
  link : String
  title : Option String
  response_text : Json
  processed_at : String
  published_at : Option String

/-- The external world of one invocation. Each field is the oracle for one
effectful primitive; oracles taking a `Nat` are indexed by the sequence
number of the call within the run. `parseDateMs s` is the time value of
`new Date(s)` (`none` for an Invalid Date — the constructor itself never
throws), `atob` returns `none` when the argument is not valid base64,
`parseJson` returns `none` when `JSON.parse` throws, and `verifyToken` is
the HMAC-SHA256 verification plus expiry check of `verifyToken`. -/
structure Env where
  nowMs : Int
  nowIso : String
  berlinHour : Nat
  parseDateMs : String → Option Int
  toIso : Int → String
  parseJson : String → Option Json
  atob : String → Option String
  verifyToken : String → Bool
  serviceRoleKeyPresent : Bool
  webhookUrlFor : Mode → String
  teamsUrlFor : Mode → String
  fetchFeed : Nat → HttpOutcome
  webhook : Nat → HttpOutcome
  initialDb : List Row
  selectFails : Bool

/-- JavaScript `>=` between a `Date` and a valid `Date`: comparing an
Invalid Date (time value `NaN`) with anything is `false`. -/
def jsDateGe (a : Option Int) (b : Int) : Bool :=
  match a with
  | none => false
  | some t => b ≤ t

/-- Embeds `isArticleWithin12Hours` (lines 130–141).  `if (!pubDate)` is a
truthiness test, so both `null` and the empty string return `true`.  For a
non-empty string, `new Date(pubDate)` never throws — an unparseable string
yields an Invalid Date — so the `catch { return true }` branch is
unreachable and the comparison decides every dated item. -/
def isArticleWithin12Hours (env : Env) (pubDate : Option String) : Bool :=
  match pubDate with
  | none => true
  | some s =>
      if s = "" then true
      else jsDateGe (env.parseDateMs s) (env.nowMs - 12 * 60 * 60 * 1000)

/-- Embeds `isWithinOperatingHours` (lines 143–152), over the already-converted
Europe/Berlin hour of day. -/
def isWithinOperatingHours (berlinHour : Nat) : Bool :=
  7 ≤ berlinHour && berlinHour < 20

/-- The capture group of `/^Bearer\s+(.+)$/i` against a header value, or
`none` when the regex does not match.  Header values contain no line
terminators (the `fetch`/`Headers` API rejects them), so `.` matches every
remaining character and `$` is the end of the string.  After the literal,
`\s+` and `(.+)` each need at least one character: when the remainder after
`Bearer` is non-whitespace-first or a single whitespace character there is
no match; when it is all whitespace of length at least two, backtracking
hands the last whitespace character to the group; otherwise the group is
everything after the leading whitespace run. -/
def bearerGroup (cs : List Char) : Option (List Char) :=
  let prefix6 := (cs.take 6).map Char.toLower
  if prefix6 = "bearer".toList then
    let rest := cs.drop 6
    match rest with
    | [] => none
    | c :: rest' =>
        if isJsWhitespace c then
          let tail := rest.dropWhile isJsWhitespace
          if tail = [] then
            if rest' = [] then none
            else some (rest.drop (rest.length - 1))
          else some tail
        else none
  else none

/-- Embeds `getBearerToken` (lines 164–168). -/
def getBearerToken (authHeader : Option String) : Option String :=
  match authHeader with
  | none => none
  | some h =>
      let base : List Char :=
        match bearerGroup h.toList with
        | some g => g
        | none => h.toList
      let t := String.mk (trimJs base)
      if t = "" then none else some t

/-- The `else if (jsonResponse.output)` leg of the response-extraction chain
(lines 428–432): use the `output` field of the parsed value when it exists
and is truthy, else the raw body text.  On a non-object (including the
array that already failed the first leg) the property access yields
`undefined`, falling through to the raw text. -/
def objOutputFallback (j : Json) (raw : String) : Json :=
  match getField j "output" with
  | some v => if jsTruthy v then v else .str raw
  | none => .str raw

/-- Response-text extraction for a 2xx webhook response (lines 424–435 and
identically 274–285): `JSON.parse` the body; prefer `parsed[0].output` when
the value is a non-empty array whose first element has a truthy `output`;
then `parsed.output`; otherwise (including a parse failure) the raw text.
(`parsed[0].output` on a `null` first element throws in JavaScript and the
surrounding `catch` then selects the raw text — the same result this
definition's fall-through produces.) -/
def extractOutput (parsed : Option Json) (raw : String) : Json :=
  match parsed with
  | none => .str raw
  | some j =>
      match j with
      | .arr (x :: _) =>
          match getField x "output" with
          | some v => if jsTruthy v then v else objOutputFallback j raw
          | none => objOutputFallback j raw
      | _ => objOutputFallback j raw

/-- Tests whether `payload.output` is defined and truthy. -/
def outputTruthy (j : Json) : Bool :=
  match getField j "output" with
  | some v => jsTruthy v
  | none => false

/-- The first leg's guard: a non-empty array whose first element has a
truthy `output` field. -/
def headOutputTruthy : Json → Bool
  | .arr (x :: _) => outputTruthy x
  | _ => false

/-- The payload of one primary (or Teams) webhook POST, minus the constant
timestamp. -/
structure WebhookPayload where
  link : String
  title : Option String
  source : String
  deriving DecidableEq, Repr

/-- The mutable state threaded through one invocation of `processCheckRss`:
the observable database content, the in-memory `existingLinks` set (a JS
`Set`, modelled as its insertion-ordered element list), the traces and call
counters of the outbound HTTP calls, and the running counters. -/
structure RunSt where
  db : List Row
  existingLinks : List String
  webhookCalls : List WebhookPayload
  webhookIdx : Nat
  teamsIdx : Nat
  fetchIdx : Nat
  fetchTrace : List String
  selectCount : Nat
  processed : Nat
  totalInFeed : Nat

/-- An error thrown out of `processCheckRss`, carrying the message the
serve handler would report. -/
inductive ProcErr where
  | thrown (msg : String)
  deriving DecidableEq, Repr

/-- Message carried by a thrown error. -/
def ProcErr.msg : ProcErr → String
  | .thrown m => m

/-- The value returned by `processCheckRss`: the short object of the
operating-hours gate (line 323), the full run report (line 510), or the
retry report (line 307). -/
inductive Outcome where
  | runShort (success : Bool) (message : String) (processed : Nat)
  | runFull (success : Bool) (message : String) (processed : Nat)
      (totalInFeed : Nat) (sources : List (String × Nat × Nat))
  | retry (success : Bool) (message : String) (responseText : String)
  deriving DecidableEq, Repr

/-- The `success` field of a returned outcome. -/
def Outcome.successB : Outcome → Bool
  | .runShort s _ _ => s
  | .runFull s _ _ _ _ => s
  | .retry s _ _ => s

/-- Embeds the `news_items` insert (lines 479–494): it fails exactly on the
`UNIQUE (link)` constraint; on success the row is appended, the counter
incremented and the link added to the in-memory set. -/
def insertRow (env : Env) (st : RunSt) (item : RSSItem) (responseText : Json)
    (publishedAt : Option String) : RunSt :=
  if st.db.any (fun r => r.link == item.link) then st
  else
    { st with
      db := st.db ++ [{ id := "", link := item.link, title := some item.title,
                        response_text := responseText, processed_at := env.nowIso,
                        published_at := publishedAt }],
      existingLinks :=
        if st.existingLinks.contains item.link then st.existingLinks
        else st.existingLinks ++ [item.link],
      processed := st.processed + 1 }

/-- One iteration of the fresh-item loop (lines 393–498): POST the item to
the primary webhook; on a thrown fetch error or a non-2xx status the item is
skipped (`continue` / the per-item `catch`); on success extract the response
text, fire the best-effort Teams POST when enabled and configured, compute
`published_at` — `item.pubDate ? new Date(item.pubDate).toISOString() : null`
is a truthiness test, so a `null` or empty-string date inserts with a null
`published_at`, while `toISOString()` on a non-empty unparseable date throws
and the per-item `catch` turns that into a skip (after the Teams call) —
and insert the row. -/
def processItem (env : Env) (opts : CheckRssOptions) (srcName : String)
    (st : RunSt) (item : RSSItem) : RunSt :=
  let outcome := env.webhook st.webhookIdx
  let st := { st with
    webhookCalls := st.webhookCalls ++
      [{ link := item.link, title := some item.title, source := srcName }],
    webhookIdx := st.webhookIdx + 1 }
  match outcome with
  | .exn _ => st
  | .httpError _ _ => st
  | .ok raw =>
      let responseText := extractOutput (env.parseJson raw) raw
      let st :=
        if opts.teamsEnabled && env.teamsUrlFor opts.teamsMode != "" then
          { st with teamsIdx := st.teamsIdx + 1 }
        else st
      match item.pubDate with
      | some s =>
          if s = "" then insertRow env st item responseText none
          else
            match env.parseDateMs s with
            | none => st
            | some t => insertRow env st item responseText (some (env.toIso t))
      | none => insertRow env st item responseText none

/-- The fresh-item loop over the already-filtered `newItems`. -/
def processItems (env : Env) (opts : CheckRssOptions) (srcName : String)
    (st : RunSt) : List RSSItem → RunSt
  | [] => st
  | item :: rest => processItems env opts srcName (processItem env opts srcName st item) rest

/-- One iteration of the source loop (lines 353–506): fetch the feed (a
thrown error or non-2xx response records `{processed: 0, total: 0}` and
moves on), parse it, filter against the current link set and the recency
window, and process the filtered items.  Returns the updated state and the
source's `{processed, total}` report. -/
def processSource (env : Env) (opts : CheckRssOptions) (st : RunSt)
    (k : SourceKey) : RunSt × (Nat × Nat) :=
  let fo := env.fetchFeed st.fetchIdx
  let st := { st with fetchTrace := st.fetchTrace ++ [sourceUrl k],
                      fetchIdx := st.fetchIdx + 1 }
  match fo with
  | .exn _ => (st, (0, 0))
  | .httpError _ _ => (st, (0, 0))
  | .ok body =>
      let rssItems := parseRSS body
      let st := { st with totalInFeed := st.totalInFeed + rssItems.length }
      if rssItems.length = 0 then (st, (0, 0))
      else
        let newItems := rssItems.filter (fun item =>
          !(st.existingLinks.contains item.link) && isArticleWithin12Hours env item.pubDate)
        let st' := processItems env opts (sourceName k) st newItems
        (st', (st'.processed - st.processed, rssItems.length))

/-- The source loop, accumulating the per-source reports (`sourceResults`). -/
def processSources (env : Env) (opts : CheckRssOptions) (st : RunSt) :
    List SourceKey → RunSt × List (String × Nat × Nat)
  | [] => (st, [])
  | k :: ks =>
      let (st', res) := processSource env opts st k
      let (st'', rest) := processSources env opts st' ks
      (st'', (sourceKeyStr k, res) :: rest)

/-- The `news_items` update of the retry branch (lines 292–298): set
`response_text` and `processed_at` on every row whose `id` matches (the
update is not an error when no row matches). -/
def updateRowById (db : List Row) (id : String) (responseText : Json)
    (processedAt : String) : List Row :=
  db.map (fun r =>
    if r.id == id then { r with response_text := responseText, processed_at := processedAt }
    else r)

/-- The retry branch of `processCheckRss` (lines 242–316): one webhook POST
with source `"Retry"`; a 2xx response stores the extracted text, a non-2xx
response stores the sentinel `"Webhook error: {status}"`, and in both cases
the row update proceeds; a thrown fetch error propagates out before any
update.  (`responseText.startsWith` on a non-string extracted value throws
after the update, and the `catch` rethrows it.) -/
def runRetry (env : Env) (r : RetryItem) (st : RunSt) : RunSt × Except ProcErr Outcome :=
  let outcome := env.webhook st.webhookIdx
  let st := { st with
    webhookCalls := st.webhookCalls ++ [{ link := r.link, title := r.title, source := "Retry" }],
    webhookIdx := st.webhookIdx + 1 }
  match outcome with
  | .exn m => (st, .error (.thrown m))
  | .ok raw =>
      let responseText := extractOutput (env.parseJson raw) raw
      let st := { st with db := updateRowById st.db r.id responseText env.nowIso }
      match responseText with
      | .str s =>
          let isError := s.startsWith "Webhook error:"
          (st, .ok (.retry (!isError) (if isError then "Retry failed" else "Retry successful") s))
      | _ => (st, .error (.thrown "responseText.startsWith is not a function"))
  | .httpError status _ =>
      let s := "Webhook error: " ++ toString status
      let st := { st with db := updateRowById st.db r.id (.str s) env.nowIso }
      (st, .ok (.retry false "Retry failed" s))

/-- The state at entry of `processCheckRss`. -/
def initSt (env : Env) : RunSt :=
  { db := env.initialDb, existingLinks := [], webhookCalls := [], webhookIdx := 0,
    teamsIdx := 0, fetchIdx := 0, fetchTrace := [], selectCount := 0,
    processed := 0, totalInFeed := 0 }

/-- Embeds `processCheckRss` (lines 229–517): configuration check, then the retry
branch, then the operating-hours gate, then the link-snapshot select and the
source loop.  Returns the final state together with the returned outcome or
the thrown error. -/
def processCheckRss (env : Env) (opts : CheckRssOptions) : RunSt × Except ProcErr Outcome :=
  let st0 := initSt env
  if env.webhookUrlFor opts.webhookMode = "" then
    (st0, .error (.thrown "Webhook URL not configured"))
  else
    match opts.retryItem with
    | some r => runRetry env r st0
    | none =>
        if !isWithinOperatingHours env.berlinHour then
          (st0, .ok (.runShort true "Outside operating hours (7:00-20:00)" 0))
        else
          if env.selectFails then
            ({ st0 with selectCount := 1 }, .error (.thrown "Unknown error"))
          else
            let st1 := { st0 with selectCount := 1,
                                  existingLinks := env.initialDb.map (·.link) }
            let res := processSources env opts st1 opts.enabledSources
            (res.1, .ok (.runFull true
              ("Processed " ++ toString res.1.processed ++ " new items")
              res.1.processed res.1.totalInFeed res.2))

/-- Embeds `String.prototype.split` with a single-character separator, keeping
empty segments (`"".split('.')` is `[""]`), structurally recursive so that
concrete tokens evaluate inside the kernel. -/
def jsSplitAux (sep : Char) : List Char → List Char → List String
  | [], acc => [String.mk acc.reverse]
  | c :: rest, acc =>
      if c = sep then String.mk acc.reverse :: jsSplitAux sep rest []
      else jsSplitAux sep rest (c :: acc)

/-- Embeds `token.split('.')`. -/
def jsSplit (sep : Char) (s : String) : List String :=
  jsSplitAux sep s.toList []

/-- Embeds `padBase64` (lines 51–54). -/
def padBase64 (b64 : String) : String :=
  b64 ++ String.mk (List.replicate ((4 - b64.length % 4) % 4) '=')

/-- The incoming HTTP request, reduced to what the handler reads: the
method, the `authorization` header, and the result of `req.json()` (`none`
when there is no body or it is not valid JSON — the `catch` keeps the
defaults in that case). -/
structure Request where
  method : String
  authHeader : Option String
  bodyJson : Option Json

/-- Reads `s.field` on the untyped request body, coerced to a string as the
TypeScript cast `body.retryItem as RetryItem` assumes; a missing or
non-string field is outside the behaviour the application ever exercises
and is modelled as the empty string. -/
def jsFieldStr (v : Json) (k : String) : String :=
  match getField v k with
  | some (.str s) => s
  | _ => ""

/-- Reads the `title` field of a retry item: `string | null`. -/
def jsFieldStrOrNull (v : Json) (k : String) : Option String :=
  match getField v k with
  | some (.str s) => some s
  | _ => none

/-- The unchecked cast of `body.retryItem` to `RetryItem`. -/
def decodeRetryItem (v : Json) : RetryItem :=
  { id := jsFieldStr v "id", link := jsFieldStr v "link",
    title := jsFieldStrOrNull v "title" }

/-- Decoding of one element of `body.sources` by the `s in RSS_SOURCES`
filter: only the four key strings survive (a non-string element converts to
a property key that is not in the object). -/
def decodeSourceKey : Json → Option SourceKey
  | .str "nius" => some .nius
  | .str "jungefreiheit" => some .jungefreiheit
  | .str "apollonews" => some .apollonews
  | .str "freilichmagazin" => some .freilichmagazin
  | _ => none

/-- Request-body option parsing of the handler (lines 528–554), including
all defaults. -/
def parseOptions (body : Option Json) : CheckRssOptions :=
  let defaults : CheckRssOptions :=
    { webhookMode := .production,
      enabledSources := [.nius, .jungefreiheit, .apollonews, .freilichmagazin],
      retryItem := none, teamsEnabled := false, teamsMode := .production }
  match body with
  | none => defaults
  | some j =>
      let webhookMode : Mode :=
        match getField j "webhookMode" with
        | some (.str "test") => .test
        | _ => .production
      let enabledSources : List SourceKey :=
        match getField j "sources" with
        | some (.arr xs) =>
            if xs.length > 0 then xs.filterMap decodeSourceKey
            else defaults.enabledSources
        | _ => defaults.enabledSources
      let retryItem : Option RetryItem :=
        match getField j "retryItem" with
        | some v => if jsTruthy v then some (decodeRetryItem v) else none
        | none => none
      let teamsEnabled : Bool :=
        match getField j "teamsEnabled" with
        | some (.bool true) => true
        | _ => false
      let teamsMode : Mode :=
        match getField j "teamsMode" with
        | some (.str "test") => .test
        | _ => .production
      { webhookMode, enabledSources, retryItem, teamsEnabled, teamsMode }

/-- Cron detection (lines 562–578): split the token on `'.'`; with exactly
three segments, base64-decode the middle one, `JSON.parse` it, and test
`payload?.role === 'anon' && payload?.iss === 'supabase'`.  Any decoding
failure is caught and leaves the call non-cron. -/
def isCronToken (env : Env) (token : String) : Bool :=
  match jsSplit '.' token with
  | [_, p1, _] =>
      match env.atob (padBase64 p1) with
      | none => false
      | some payloadJson =>
          match env.parseJson payloadJson with
          | none => false
          | some payload =>
              (match getField payload "role" with
                | some (.str r) => r == "anon"
                | _ => false) &&
              (match getField payload "iss" with
                | some (.str i) => i == "supabase"
                | _ => false)
  | _ => false

/-- Embeds `JSON.stringify(result)` of a returned outcome, as a JSON value. -/
def outcomeToJson : Outcome → Json
  | .runShort s m p =>
      .obj [("success", .bool s), ("message", .str m), ("processed", .num p)]
  | .runFull s m p t srcs =>
      .obj [("success", .bool s), ("message", .str m), ("processed", .num p),
            ("total_in_feed", .num t),
            ("sources", .obj (srcs.map (fun r =>
              (r.1, .obj [("processed", .num r.2.1), ("total", .num r.2.2)]))))]
  | .retry s m rt =>
      .obj [("success", .bool s), ("message", .str m), ("response_text", .str rt)]

/-- The handler's HTTP response (status and JSON body; the OPTIONS
preflight response has no body) together with the background work a cron
call schedules through `EdgeRuntime.waitUntil`: the response is produced at
scheduling time, so the options of the still-unexecuted run are returned as
data next to it. -/
structure HandlerOut where
  status : Nat
  body : Option Json
  background : Option CheckRssOptions

/-- The `Deno.serve` handler (lines 519–680).  The `rss_runs` ledger writes
(`logRunStart` / `logRunFinish`) are best-effort logging with no effect on
the response and are not modelled.  For a cron-tier token the response is
returned with the run not yet executed (`background` holds the options the
scheduled task will use, with Teams forced on); the interactive tier runs
`processCheckRss` synchronously and reports its outcome or a 500 with the
thrown message. -/
def handler (env : Env) (req : Request) : HandlerOut :=
  if req.method = "OPTIONS" then { status := 200, body := none, background := none }
  else
    let token := getBearerToken req.authHeader
    let opts := parseOptions req.bodyJson
    let isCronCall :=
      match token with
      | some t => isCronToken env t
      | none => false
    if isCronCall then
      { status := 200,
        body := some (.obj [("success", .bool true), ("accepted", .bool true)]),
        background := some { opts with teamsEnabled := true } }
    else
      match token with
      | none =>
          { status := 401,
            body := some (.obj [("success", .bool false), ("error", .str "Authentication required")]),
            background := none }
      | some t =>
          if !env.serviceRoleKeyPresent then
            { status := 500,
              body := some (.obj [("success", .bool false), ("error", .str "Server configuration error")]),
              background := none }
          else if !env.verifyToken t then
            { status := 401,
              body := some (.obj [("success", .bool false), ("error", .str "Invalid or expired token")]),
              background := none }
          else
            match processCheckRss env opts with
            | (_, .ok o) => { status := 200, body := some (outcomeToJson o), background := none }
            | (_, .error e) =>
                { status := 500,
                  body := some (.obj [("success", .bool false), ("error", .str e.msg)]),
                  background := none }

/-! ## Concrete instances used by counterexamples and witnesses -/

/-- A concrete baseline environment for witnesses and counterexamples; the
individual instances override the fields they care about. -/
def envW : Env :=
  { nowMs := 1000000000, nowIso := "2026-01-01T10:00:00.000Z", berlinHour := 12,
    parseDateMs := fun _ => none, toIso := fun _ => "",
    parseJson := fun _ => none, atob := fun _ => none,
    verifyToken := fun _ => true, serviceRoleKeyPresent := true,
    webhookUrlFor := fun _ => "https://primary.example/hook",
    teamsUrlFor := fun _ => "",
    fetchFeed := fun _ => .ok "", webhook := fun _ => .ok "hello",
    initialDb := [], selectFails := false }

/-- Default (non-retry) options restricted to a single source. -/
def optsW : CheckRssOptions :=
  { webhookMode := .production, enabledSources := [.nius], retryItem := none,
    teamsEnabled := false, teamsMode := .production }

/-- A feed document containing the same link twice. -/
def dupFeed : String :=
  "<item><link>https://a</link></item><item><link>https://a</link></item>"

/-- The environment of the C1 counterexample: empty store, one source whose
feed is `dupFeed`, every webhook call succeeding. -/
def envC1 : Env := { envW with fetchFeed := fun _ => .ok dupFeed }

/-- The item `dupFeed` parses to (twice). -/
def itemC1 : RSSItem := { title := "", link := "https://a", pubDate := none }

/-- The run state just before the fresh-item loop of the single source of
the C1 counterexample run (after the gate, the empty-store snapshot and the
feed fetch). -/
def stC1 : RunSt :=
  { initSt envC1 with selectCount := 1, fetchTrace := [sourceUrl .nius],
                      fetchIdx := 1, totalInFeed := 2 }

/-! ## Claim C3: null and boundary dates pass the recency filter -/

/-- C3: an item without a publish date passes the recency filter, and a
publish date lying exactly at the 12-hour boundary (time value equal to
`now - 12h`) passes it too — the comparison is inclusive. -/
theorem C3_recency_null_and_boundary (env : Env) (s : String) :
    isArticleWithin12Hours env none = true ∧
    (env.parseDateMs s = some (env.nowMs - 12 * 60 * 60 * 1000) →
      isArticleWithin12Hours env (some s) = true) := by
  refine ⟨rfl, fun h => ?_⟩
  simp [isArticleWithin12Hours, jsDateGe, h]

/-- Witness for C3 at a concrete environment and date string. -/
theorem C3_recency_witness :
    isArticleWithin12Hours
      { nowMs := 1000000000, nowIso := "", berlinHour := 12,
        parseDateMs := fun _ => some (1000000000 - 12 * 60 * 60 * 1000),
        toIso := fun _ => "", parseJson := fun _ => none, atob := fun _ => none,
        verifyToken := fun _ => true, serviceRoleKeyPresent := true,
        webhookUrlFor := fun _ => "u", teamsUrlFor := fun _ => "",
        fetchFeed := fun _ => .ok "", webhook := fun _ => .ok "",
        initialDb := [], selectFails := false }
      (some "Thu, 01 Jan 2026 09:00:00 GMT") = true :=
  (C3_recency_null_and_boundary _ _).2 rfl

/-! ## Claim C4: unparseable dates are claimed to be included, but are not -/

/-- C4 (the code, at the claimed input class): for every non-empty
publish-date string the date oracle cannot parse, `isArticleWithin12Hours`
returns `false` — the item is excluded.  (The empty string is the one
unparseable date the code does include, through the falsy `!pubDate`
check.)  For every other unparseable string, `new Date(s)` never throws; it
yields an Invalid Date whose `NaN` time value makes
`articleDate >= twelveHoursAgo` false, so the
`catch { return true; // If parsing fails, include it }` branch meant to
implement the claimed behaviour is unreachable.  The code contradicts its
own comment here, so the claim is recorded as a code bug. -/
theorem C4_unparseable_date_excluded (env : Env) (s : String)
    (h : env.parseDateMs s = none) (hne : s ≠ "") :
    isArticleWithin12Hours env (some s) = false := by
  simp [isArticleWithin12Hours, jsDateGe, h, hne]

/-- Witness for C4: a concrete unparseable date string is excluded. -/
theorem C4_unparseable_date_witness :
    isArticleWithin12Hours
      { nowMs := 1000000000, nowIso := "", berlinHour := 12,
        parseDateMs := fun _ => none,
        toIso := fun _ => "", parseJson := fun _ => none, atob := fun _ => none,
        verifyToken := fun _ => true, serviceRoleKeyPresent := true,
        webhookUrlFor := fun _ => "u", teamsUrlFor := fun _ => "",
        fetchFeed := fun _ => .ok "", webhook := fun _ => .ok "",
        initialDb := [], selectFails := false }
      (some "not a real date") = false :=
  C4_unparseable_date_excluded _ _ rfl (by decide)

/-! ## Claim C5: the parser is total, links are mandatory and non-empty,
title and date degrade gracefully -/

/-- Helper: an item produced by `mkRSSItem` passed the non-empty-link
guard. -/
theorem mkRSSItem_link_ne (c : List Char) (it : RSSItem)
    (h : mkRSSItem c = some it) : it.link ≠ "" := by
  unfold mkRSSItem at h
  rcases hl : execTagField "link" c with _ | lm
  · rw [hl] at h; exact absurd h (by simp)
  · rw [hl] at h
    simp only at h
    split at h
    · exact absurd h (by simp)
    · rename_i hne
      cases h
      simpa [String.ext_iff] using hne

/-- C5: `parseRSS` is a total function on all input strings (so parsing
never raises), every emitted item has a non-empty link — item blocks whose
link regex does not match, or whose trimmed link text is empty, are
discarded — and within an emitted block a missing title field yields the
empty title while a missing publish-date field yields `none`. -/
theorem C5_parser_total_and_guarded :
    (∀ xmlText : String, ∀ it ∈ parseRSS xmlText, it.link ≠ "") ∧
    (∀ c : List Char, execTagField "link" c = none → mkRSSItem c = none) ∧
    (∀ (c : List Char) (it : RSSItem), mkRSSItem c = some it →
      (execTagField "title" c = none → it.title = "") ∧
      (execTagField "pubDate" c = none → it.pubDate = none)) := by
  refine ⟨?_, ?_, ?_⟩
  · intro xml it hmem
    rcases List.mem_filterMap.mp hmem with ⟨c, _, hc⟩
    exact mkRSSItem_link_ne c it hc
  · intro c hnone
    unfold mkRSSItem
    rw [hnone]
  · intro c it h
    unfold mkRSSItem at h
    rcases hl : execTagField "link" c with _ | lm
    · rw [hl] at h; exact absurd h (by simp)
    · rw [hl] at h
      simp only at h
      split at h
      · exact absurd h (by simp)
      · cases h
        constructor
        · intro ht; rw [ht]
        · intro hp; rw [hp]

/-- Witness for C5: a concrete feed whose only well-formed block lacks a
title and a date; the parsed item has a non-empty link, empty title, null
date, and the linkless block is dropped. -/
theorem C5_parser_witness :
    (∀ it ∈ parseRSS "<item><title>no link here</title></item><item><link>https://example.org/a</link></item>",
      it.link ≠ "") ∧
    parseRSS "<item><title>no link here</title></item><item><link>https://example.org/a</link></item>"
      = [{ title := "", link := "https://example.org/a", pubDate := none }] :=
  ⟨fun it hmem => C5_parser_total_and_guarded.1 _ it hmem, by decide⟩

/-! ## Claim C7: response-text extraction -/

/-- C7 counterexample: a body that parses as a JSON array whose first
element *has* an `output` field — with the falsy value `""` — does not get
that field's value as the result text; the raw body text is used instead
(the code tests `jsonResponse[0].output` for truthiness, not presence). -/
theorem C7_output_field_counterexample :
    getField (Json.obj [("output", Json.str "")]) "output" = some (Json.str "") ∧
    extractOutput (some (Json.arr [Json.obj [("output", Json.str "")]])) "rawbody"
      = Json.str "rawbody" ∧
    Json.str "rawbody" ≠ Json.str "" := by
  refine ⟨rfl, rfl, by simp⟩

/-- C7 (amended): for an HTTP-successful delivery the stored result text is
the `output` field of the parsed body when the body parses as an array whose
first element carries a *truthy* `output`, else the parsed object's truthy
`output` field, and otherwise — no parse, no `output`, or a falsy
`output` — the raw body text. -/
theorem C7_extraction_rule (raw : String) :
    (extractOutput none raw = Json.str raw) ∧
    (∀ (x : Json) (rest : List Json) (v : Json),
      getField x "output" = some v → jsTruthy v = true →
      extractOutput (some (Json.arr (x :: rest))) raw = v) ∧
    (∀ (fields : List (String × Json)) (v : Json),
      getField (Json.obj fields) "output" = some v → jsTruthy v = true →
      extractOutput (some (Json.obj fields)) raw = v) ∧
    (∀ j : Json, headOutputTruthy j = false → outputTruthy j = false →
      extractOutput (some j) raw = Json.str raw) := by
  refine ⟨rfl, ?_, ?_, ?_⟩
  · intro x rest v hf ht
    simp [extractOutput, hf, ht]
  · intro fields v hf ht
    simp [extractOutput, objOutputFallback, hf, ht]
  · intro j hhead hout
    have hjsout : ∀ v, getField j "output" = some v → jsTruthy v = false := by
      intro v hv
      unfold outputTruthy at hout
      rw [hv] at hout
      simpa using hout
    have hfall : objOutputFallback j raw = Json.str raw := by
      unfold objOutputFallback
      rcases hf : getField j "output" with _ | v
      · rfl
      · simp [hf, hjsout v hf]
    cases j with
    | arr xs =>
        cases xs with
        | nil => simp [extractOutput, hfall]
        | cons x rest =>
            have hx : ∀ v, getField x "output" = some v → jsTruthy v = false := by
              intro v hv
              simp only [headOutputTruthy] at hhead
              unfold outputTruthy at hhead
              rw [hv] at hhead
              simpa using hhead
            rcases hf : getField x "output" with _ | v
            · simp [extractOutput, hf, hfall]
            · simp [extractOutput, hf, hx v hf, hfall]
    | null => simp [extractOutput, hfall]
    | bool b => simp [extractOutput, hfall]
    | num n => simp [extractOutput, hfall]
    | str s => simp [extractOutput, hfall]
    | obj fields => simp [extractOutput, hfall]

/-- Witness for C7 at concrete payloads: the array leg, the object leg, and
the raw-text fallback of an unparseable body. -/
theorem C7_extraction_witness :
    extractOutput (some (Json.arr [Json.obj [("output", Json.str "summary")]])) "ignored"
      = Json.str "summary" ∧
    extractOutput (some (Json.obj [("output", Json.str "direct")])) "ignored"
      = Json.str "direct" ∧
    extractOutput none "plain text body" = Json.str "plain text body" :=
  ⟨(C7_extraction_rule "ignored").2.1 _ [] _ rfl rfl,
   (C7_extraction_rule "ignored").2.2.1 _ _ rfl rfl,
   (C7_extraction_rule "plain text body").1⟩

/-! ## Claim C10: bearer-token extraction fallback -/

/-- C10 counterexample: the all-whitespace header value `" "` is non-empty
and does not match `/^Bearer\s+(.+)$/i`, but the entire trimmed header value
(`""`) is *not* used as the token — the final `|| null` turns it into no
token at all (observable as the `Authentication required` response rather
than a token-verification failure). -/
theorem C10_whitespace_counterexample :
    (" " : String) ≠ "" ∧
    bearerGroup (" ".toList) = none ∧
    strTrimJs " " = "" ∧
    getBearerToken (some " ") = none := by
  refine ⟨by decide, by decide, by decide, by decide⟩

/-- C10 (amended): for every Authorization header value that does not match
the `Bearer <token>` scheme and does not consist entirely of whitespace, the
entire trimmed header value is used as the token itself (so a raw token
presented without the `Bearer` prefix enters the cron-detection and
verification paths); an all-whitespace non-matching value yields no
token. -/
theorem C10_raw_token_fallback (h : String)
    (hnomatch : bearerGroup h.toList = none)
    (hne : strTrimJs h ≠ "") :
    getBearerToken (some h) = some (strTrimJs h) := by
  unfold strTrimJs at hne ⊢
  simp only [getBearerToken, hnomatch]
  rw [if_neg hne]

/-- Witness for C10: a raw JWT-shaped token without the `Bearer` prefix is
returned whole, and so is the non-matching header `"Bearer "` (the literal
followed by a single whitespace character, which `\s+(.+)` cannot absorb),
whose trimmed whole value `"Bearer"` becomes the token. -/
theorem C10_raw_token_witness :
    getBearerToken (some "eyJh.eyJi.c2ln") = some (strTrimJs "eyJh.eyJi.c2ln") ∧
    getBearerToken (some "Bearer ") = some (strTrimJs "Bearer ") :=
  ⟨C10_raw_token_fallback "eyJh.eyJi.c2ln" (by decide) (by decide),
   C10_raw_token_fallback "Bearer " (by decide) (by decide)⟩

/-! ## Helper lemmas about the fresh-item loop -/

/-- The insert never touches the webhook-call trace. -/
theorem insertRow_calls (env : Env) (st : RunSt) (item : RSSItem)
    (rt : Json) (pub : Option String) :
    (insertRow env st item rt pub).webhookCalls = st.webhookCalls := by
  unfold insertRow
  split <;> rfl

/-- Any row the insert adds carries the item's link. -/
theorem insertRow_db (env : Env) (st : RunSt) (item : RSSItem)
    (rt : Json) (pub : Option String) :
    ∀ r ∈ (insertRow env st item rt pub).db, r ∈ st.db ∨ r.link = item.link := by
  intro r hr
  unfold insertRow at hr
  split at hr
  · exact .inl hr
  · simp only [List.mem_append, List.mem_singleton] at hr
    rcases hr with hr | hr
    · exact .inl hr
    · subst hr; exact .inr rfl

/-- One loop iteration appends exactly the item's payload to the primary
webhook trace, whatever the delivery outcome. -/
theorem processItem_calls (env : Env) (opts : CheckRssOptions) (srcName : String)
    (st : RunSt) (item : RSSItem) :
    (processItem env opts srcName st item).webhookCalls =
      st.webhookCalls ++ [{ link := item.link, title := some item.title, source := srcName }] := by
  cases hw : env.webhook st.webhookIdx with
  | ok raw =>
      simp only [processItem, hw]
      rcases item with ⟨ititle, ilink, ipub⟩
      rcases ipub with _ | ps
      · simp only [insertRow_calls]
        split <;> rfl
      · by_cases hs : ps = ""
        · simp only [hs, if_pos, insertRow_calls]
          split <;> rfl
        · simp only [if_neg hs]
          cases hp : env.parseDateMs ps <;> simp only [hp, insertRow_calls]
          · split <;> rfl
          · split <;> rfl
  | httpError s b => simp [processItem, hw]
  | exn m => simp [processItem, hw]

/-- Any row one loop iteration adds carries the item's link. -/
theorem processItem_db (env : Env) (opts : CheckRssOptions) (srcName : String)
    (st : RunSt) (item : RSSItem) :
    ∀ r ∈ (processItem env opts srcName st item).db, r ∈ st.db ∨ r.link = item.link := by
  intro r hr
  rcases item with ⟨ititle, ilink, ipub⟩
  cases hw : env.webhook st.webhookIdx with
  | ok raw =>
      rcases ipub with _ | ps
      · simp only [processItem, hw] at hr
        split at hr
        · have h2 := insertRow_db _ _ _ _ _ r hr; exact h2
        · have h2 := insertRow_db _ _ _ _ _ r hr; exact h2
      · by_cases hs : ps = ""
        · simp only [processItem, hw, hs, if_pos] at hr
          split at hr
          · have h2 := insertRow_db _ _ _ _ _ r hr; exact h2
          · have h2 := insertRow_db _ _ _ _ _ r hr; exact h2
        · cases hp : env.parseDateMs ps <;>
            simp only [processItem, hw, if_neg hs, hp] at hr
          · split at hr
            · exact .inl hr
            · exact .inl hr
          · split at hr
            · have h2 := insertRow_db _ _ _ _ _ r hr; exact h2
            · have h2 := insertRow_db _ _ _ _ _ r hr; exact h2
  | httpError s b =>
      simp only [processItem, hw] at hr
      exact .inl hr
  | exn m =>
      simp only [processItem, hw] at hr
      exact .inl hr

/-- The fresh-item loop appends exactly the payloads of the processed
items, in order. -/
theorem processItems_calls (env : Env) (opts : CheckRssOptions) (srcName : String)
    (items : List RSSItem) : ∀ st : RunSt,
    (processItems env opts srcName st items).webhookCalls =
      st.webhookCalls ++ items.map (fun it =>
        { link := it.link, title := some it.title, source := srcName }) := by
  induction items with
  | nil => intro st; simp [processItems]
  | cons it rest ih =>
      intro st
      simp only [processItems, ih, processItem_calls, List.map_cons,
        List.append_assoc, List.singleton_append]

/-- Any row the fresh-item loop adds carries the link of one of the
processed items. -/
theorem processItems_db (env : Env) (opts : CheckRssOptions) (srcName : String)
    (items : List RSSItem) : ∀ st : RunSt,
    ∀ r ∈ (processItems env opts srcName st items).db,
      r ∈ st.db ∨ r.link ∈ items.map RSSItem.link := by
  induction items with
  | nil => intro st r hr; exact .inl hr
  | cons it rest ih =>
      intro st r hr
      rcases ih (processItem env opts srcName st it) r hr with h | h
      · rcases processItem_db env opts srcName st it r h with h' | h'
        · exact .inl h'
        · exact .inr (by simp [h'])
      · exact .inr (by simp only [List.map_cons, List.mem_cons]; exact .inr h)

/-! ## Claim C1: deduplication against the link snapshot -/

/-- C1 counterexample: the exclusion is evaluated once per source, before
that source's items are processed, so a link duplicated inside one source's
feed defeats it.  In the concrete run on `dupFeed` (empty store, every
delivery succeeding) the primary webhook is called twice for
`"https://a"`, although after the first iteration that link is already in
the in-memory set — the claim predicts a single call; only the
`UNIQUE (link)` constraint prevents a second row. -/
theorem C1_within_source_duplicate_counterexample :
    (processCheckRss envC1 optsW).1.webhookCalls.map WebhookPayload.link
      = ["https://a", "https://a"] ∧
    (processCheckRss envC1 optsW).1.db.map Row.link = ["https://a"] ∧
    (processItem envC1 optsW "NIUS" stC1 itemC1).existingLinks.contains itemC1.link
      = true ∧
    (processItem envC1 optsW "NIUS" (processItem envC1 optsW "NIUS" stC1 itemC1)
        itemC1).webhookCalls.length = 2 := by
  decide

/-- C1 (amended): exclusion holds with respect to the link set as it stands
when a source's filter is evaluated — the pre-fetched snapshot plus every
link added by previously processed feeds of the same run.  No webhook call
issued while processing a source, and no row inserted by it, carries a link
that was in the in-memory set when that source was filtered, regardless of
publish date or recency; the claim's stronger reading fails only for links
duplicated within a single source's feed (see the counterexample). -/
theorem C1_snapshot_links_excluded (env : Env) (opts : CheckRssOptions)
    (st : RunSt) (k : SourceKey) :
    (∀ p ∈ (processSource env opts st k).1.webhookCalls,
      p ∈ st.webhookCalls ∨ st.existingLinks.contains p.link = false) ∧
    (∀ r ∈ (processSource env opts st k).1.db,
      r ∈ st.db ∨ st.existingLinks.contains r.link = false) := by
  unfold processSource
  cases hf : env.fetchFeed st.fetchIdx with
  | ok body =>
      simp only
      split
      · exact ⟨fun p hp => .inl hp, fun r hr => .inl hr⟩
      · constructor
        · intro p hp
          rw [processItems_calls] at hp
          simp only [List.mem_append] at hp
          rcases hp with hp | hp
          · exact .inl hp
          · simp only [List.mem_map] at hp
            obtain ⟨it, hit, rfl⟩ := hp
            have hcond := (List.mem_filter.mp hit).2
            simp only [Bool.and_eq_true, Bool.not_eq_true'] at hcond
            exact .inr hcond.1
        · intro r hr
          rcases processItems_db env opts (sourceName k) _ _ r hr with hr | hr
          · exact .inl hr
          · simp only [List.mem_map] at hr
            obtain ⟨it, hit, hlink⟩ := hr
            have hcond := (List.mem_filter.mp hit).2
            simp only [Bool.and_eq_true, Bool.not_eq_true'] at hcond
            rw [hlink] at hcond
            exact .inr hcond.1
  | httpError s b =>
      exact ⟨fun p hp => .inl hp, fun r hr => .inl hr⟩
  | exn m =>
      exact ⟨fun p hp => .inl hp, fun r hr => .inl hr⟩

/-- Witness for C1 (amended) at a concrete run: one stored link, a feed
containing one new item; the single webhook call is for a link outside the
snapshot. -/
theorem C1_snapshot_links_witness :
    let env : Env :=
      { envW with
        fetchFeed := fun _ => .ok "<item><link>https://new</link></item>",
        initialDb := [{ id := "1", link := "https://old", title := none,
                        response_text := Json.null, processed_at := "", published_at := none }] }
    let st : RunSt := { initSt env with selectCount := 1, existingLinks := ["https://old"] }
    ({ link := "https://new", title := some "", source := "NIUS" } : WebhookPayload)
        ∈ st.webhookCalls ∨
      st.existingLinks.contains "https://new" = false := by
  intro env st
  exact (C1_snapshot_links_excluded env optsW st .nius).1
    { link := "https://new", title := some "", source := "NIUS" } (by decide)

/-! ## Claim C6: the operating-hours gate -/

/-- C6: a non-retry invocation outside the 07:00–20:00 Europe/Berlin window
returns `success: true` with `processed: 0` from the state at entry — no
feed fetch and no store read has happened; and for every hour inside the
window (`hour >= 7 && hour < 20`) the gate passes. -/
theorem C6_operating_hours_gate (env : Env) (opts : CheckRssOptions)
    (hretry : opts.retryItem = none)
    (hurl : env.webhookUrlFor opts.webhookMode ≠ "") :
    (isWithinOperatingHours env.berlinHour = false →
      processCheckRss env opts =
        (initSt env, .ok (.runShort true "Outside operating hours (7:00-20:00)" 0)) ∧
      (processCheckRss env opts).1.fetchTrace = [] ∧
      (processCheckRss env opts).1.selectCount = 0) ∧
    (7 ≤ env.berlinHour → env.berlinHour < 20 →
      isWithinOperatingHours env.berlinHour = true) := by
  constructor
  · intro hgate
    have hmain : processCheckRss env opts =
        (initSt env, .ok (.runShort true "Outside operating hours (7:00-20:00)" 0)) := by
      unfold processCheckRss
      rw [if_neg hurl, hretry]
      simp [hgate]
    exact ⟨hmain, by rw [hmain]; rfl, by rw [hmain]; rfl⟩
  · intro h7 h20
    unfold isWithinOperatingHours
    simp only [Bool.and_eq_true, decide_eq_true_eq]
    exact ⟨h7, h20⟩

/-- Witness for C6 at a concrete out-of-window environment (22:00 Berlin
time): the run short-circuits with zero processed items and an untouched
entry state. -/
theorem C6_operating_hours_witness :
    processCheckRss { envW with berlinHour := 22 } optsW =
      (initSt { envW with berlinHour := 22 },
       .ok (.runShort true "Outside operating hours (7:00-20:00)" 0)) :=
  ((C6_operating_hours_gate { envW with berlinHour := 22 } optsW rfl
    (by decide)).1 (by decide)).1

/-! ## Claim C9: the retry branch precedes the operating-hours gate -/

/-- The retry branch always issues its webhook POST, whatever the delivery
outcome. -/
theorem runRetry_calls (env : Env) (r : RetryItem) (st : RunSt) :
    (runRetry env r st).1.webhookCalls =
      st.webhookCalls ++ [{ link := r.link, title := r.title, source := "Retry" }] := by
  unfold runRetry
  cases env.webhook st.webhookIdx with
  | ok raw =>
      simp only
      cases extractOutput (env.parseJson raw) raw <;> rfl
  | httpError s b => rfl
  | exn m => rfl

/-- C9: with a retry item present (and the webhook URL configured, which is
checked first), `processCheckRss` enters the retry branch before the
operating-hours gate is ever evaluated: the whole invocation is independent
of the Berlin hour, and the retry webhook delivery is issued even at an
hour outside the 07:00–20:00 window. -/
theorem C9_retry_ignores_operating_hours (env : Env) (opts : CheckRssOptions)
    (r : RetryItem) (h : Nat)
    (hretry : opts.retryItem = some r)
    (hurl : env.webhookUrlFor opts.webhookMode ≠ "") :
    processCheckRss { env with berlinHour := h } opts = runRetry env r (initSt env) ∧
    (processCheckRss { env with berlinHour := h } opts).1.webhookCalls =
      [{ link := r.link, title := r.title, source := "Retry" }] := by
  have hmain : processCheckRss { env with berlinHour := h } opts = runRetry env r (initSt env) := by
    unfold processCheckRss
    rw [hretry]
    rcases env with ⟨nMs, nIso, bH, pD, tI, pJ, aB, vT, sK, wU, tU, fF, wH, iDb, sF⟩
    rw [if_neg hurl]
    rfl
  refine ⟨hmain, ?_⟩
  rw [hmain, runRetry_calls]
  rfl

/-- Witness for C9: a concrete retry at 03:00 Berlin time still posts to
the webhook. -/
theorem C9_retry_witness :
    (processCheckRss { envW with berlinHour := 3 }
        { optsW with retryItem := some { id := "42", link := "https://r", title := none } }).1.webhookCalls
      = [{ link := "https://r", title := none, source := "Retry" }] :=
  (C9_retry_ignores_operating_hours envW
    { optsW with retryItem := some { id := "42", link := "https://r", title := none } }
    { id := "42", link := "https://r", title := none } 3 rfl (by decide)).2

/-! ## Claim C2: failed deliveries — fresh items skipped, retries persisted -/

/-- C2: (1) a fresh item whose primary delivery returns a non-2xx status
leaves the run state untouched except for the recorded call — no row is
inserted, no link added, the processed counter unchanged; (2) every outcome
a non-retry invocation returns (rather than throws) has `success: true`;
(3) for an explicit retry, the row update proceeds whatever the delivery
outcome, persisting the sentinel `"Webhook error: {status}"` on a non-2xx
response and the extracted response text on a 2xx response. -/
theorem C2_failure_isolation :
    (∀ (env : Env) (opts : CheckRssOptions) (srcName : String) (st : RunSt)
        (item : RSSItem) (status : Nat) (body : String),
      env.webhook st.webhookIdx = .httpError status body →
      processItem env opts srcName st item =
        { st with
          webhookCalls := st.webhookCalls ++
            [{ link := item.link, title := some item.title, source := srcName }],
          webhookIdx := st.webhookIdx + 1 }) ∧
    (∀ (env : Env) (opts : CheckRssOptions) (st : RunSt) (o : Outcome),
      opts.retryItem = none → processCheckRss env opts = (st, .ok o) →
      o.successB = true) ∧
    (∀ (env : Env) (opts : CheckRssOptions) (r : RetryItem),
      opts.retryItem = some r → env.webhookUrlFor opts.webhookMode ≠ "" →
      (∀ status body, env.webhook 0 = .httpError status body →
        (processCheckRss env opts).1.db =
          updateRowById env.initialDb r.id
            (.str ("Webhook error: " ++ toString status)) env.nowIso) ∧
      (∀ raw, env.webhook 0 = .ok raw →
        (processCheckRss env opts).1.db =
          updateRowById env.initialDb r.id
            (extractOutput (env.parseJson raw) raw) env.nowIso)) := by
  refine ⟨?_, ?_, ?_⟩
  · intro env opts srcName st item status body hw
    simp [processItem, hw]
  · intro env opts st o hretry hrun
    unfold processCheckRss at hrun
    split at hrun
    · exact absurd (congrArg Prod.snd hrun) (by simp)
    · rw [hretry] at hrun
      simp only at hrun
      split at hrun
      · have := congrArg Prod.snd hrun
        simp only at this
        cases this
        rfl
      · split at hrun
        · exact absurd (congrArg Prod.snd hrun) (by simp)
        · have h2 := congrArg Prod.snd hrun
          simp only at h2
          cases h2
          rfl
  · intro env opts r hretry hurl
    have hmain : processCheckRss env opts = runRetry env r (initSt env) := by
      unfold processCheckRss
      rw [if_neg hurl, hretry]
    constructor
    · intro status body hw
      rw [hmain]
      unfold runRetry
      have : (initSt env).webhookIdx = 0 := rfl
      rw [this, hw]
      rfl
    · intro raw hw
      rw [hmain]
      unfold runRetry
      have h0 : (initSt env).webhookIdx = 0 := rfl
      rw [h0, hw]
      simp only
      cases extractOutput (env.parseJson raw) raw <;> rfl

/-- Witness for C2 at concrete runs: a 502 delivery of the only fresh item
yields a successful run with no rows and zero processed; a 502 retry
persists the sentinel on the targeted row. -/
theorem C2_failure_witness :
    (processCheckRss
        { envW with
          fetchFeed := fun _ => .ok "<item><link>https://fail</link></item>",
          webhook := fun _ => .httpError 502 "bad gateway" } optsW).2 =
      .ok (.runFull true "Processed 0 new items" 0 1 [("nius", 0, 1)]) ∧
    (processCheckRss
        { envW with
          fetchFeed := fun _ => .ok "<item><link>https://fail</link></item>",
          webhook := fun _ => .httpError 502 "bad gateway" } optsW).1.db = [] ∧
    (processCheckRss
        { envW with
          initialDb := [{ id := "7", link := "https://r", title := none,
                          response_text := Json.null, processed_at := "old", published_at := none }],
          webhook := fun _ => .httpError 502 "bad gateway" }
        { optsW with retryItem := some { id := "7", link := "https://r", title := none } }).1.db =
      updateRowById
        [{ id := "7", link := "https://r", title := none,
           response_text := Json.null, processed_at := "old", published_at := none }]
        "7" (.str ("Webhook error: " ++ toString 502)) envW.nowIso := by
  refine ⟨by rfl, by rfl, ?_⟩
  exact (C2_failure_isolation.2.2
    { envW with
      initialDb := [{ id := "7", link := "https://r", title := none,
                      response_text := Json.null, processed_at := "old", published_at := none }],
      webhook := fun _ => .httpError 502 "bad gateway" }
    { optsW with retryItem := some { id := "7", link := "https://r", title := none } }
    { id := "7", link := "https://r", title := none } rfl (by decide)).1 502 "bad gateway" rfl

/-! ## Claim C8: cron-tier calls are acknowledged immediately with Teams
forced on -/

/-- C8: when the bearer token decodes to a payload with role `"anon"` and
issuer `"supabase"`, the handler's response is exactly the JSON body
`\x7b success: true, accepted: true \x7d`, produced while the run is still
unexecuted — the scheduled background work is returned as data beside the
response — and that background run uses the request's parsed options with
`teamsEnabled` forced to `true`, whatever the request body said. -/
theorem C8_cron_accepted_with_teams (env : Env) (req : Request) (t : String)
    (hmethod : req.method ≠ "OPTIONS")
    (htok : getBearerToken req.authHeader = some t)
    (hcron : isCronToken env t = true) :
    handler env req =
      { status := 200,
        body := some (.obj [("success", .bool true), ("accepted", .bool true)]),
        background := some { parseOptions req.bodyJson with teamsEnabled := true } } ∧
    (handler env req).background.map CheckRssOptions.teamsEnabled = some true := by
  have hmain : handler env req =
      { status := 200,
        body := some (.obj [("success", .bool true), ("accepted", .bool true)]),
        background := some { parseOptions req.bodyJson with teamsEnabled := true } } := by
    unfold handler
    rw [if_neg hmethod, htok]
    simp [hcron]
  exact ⟨hmain, by rw [hmain]; rfl⟩

/-- Witness for C8: a concrete cron-tier request whose body tries to turn
Teams off is acknowledged with `accepted: true` and scheduled with Teams
on. -/
theorem C8_cron_accepted_witness :
    handler
      { envW with
        atob := fun _ => some "payload",
        parseJson := fun s =>
          if s = "payload" then
            some (.obj [("role", .str "anon"), ("iss", .str "supabase")])
          else none }
      { method := "POST", authHeader := some "Bearer aaa.bbb.ccc",
        bodyJson := some (.obj [("teamsEnabled", .bool false)]) } =
      { status := 200,
        body := some (.obj [("success", .bool true), ("accepted", .bool true)]),
        background := some { parseOptions (some (.obj [("teamsEnabled", .bool false)]))
                              with teamsEnabled := true } } :=
  (C8_cron_accepted_with_teams _ _ "aaa.bbb.ccc" (by decide) (by decide) (by decide)).1

end CheckRss
